import Mathlib

/-!
Shallow embedding of the jupyter-profiler VS Code extension
(`src/unnamed/part_000`, the richer of the two near-duplicate variants;
`src/extension.js` is the other).  JavaScript numbers are modelled as `ℚ`
(`total_hits` as `ℕ`, the spec fixes it as a non-negative integer); fields a
JSON object may lack are `Option`s; the decoration store (a JS `Map`) is an
association list with insertion-order / replace-on-set semantics; a thrown
and caught exception is modelled by a `Bool` success flag on the run.
-/

namespace JupyterProfiler

/-- A loosely-typed JSON statistics object as consumed by `classifyCell` and
the per-line decoration code.  Cell-level records populate
`percent_time`/`total_time`/`total_hits`/`memory_delta_mb`; line-level records
populate `time`/`percent`.  Dynamic property access on an absent field yields
`undefined`, modelled as `none`. -/
structure JsStats where
  percent_time : Option ℚ := none
  total_time : Option ℚ := none
  total_hits : Option ℕ := none
  memory_delta_mb : Option ℚ := none
  time : Option ℚ := none
  percent : Option ℚ := none
  deriving DecidableEq

/-- `Number.prototype.toFixed(2)` for the non-negative rationals this program
renders: the value rounded to 2 decimal places (half away from zero) and
printed with exactly two digits after the point. -/
def toFixed2 (q : ℚ) : String :=
  let n : ℤ := ⌊q * 100 + 1 / 2⌋
  let ip : ℤ := n / 100
  let fp : ℕ := (n % 100).natAbs
  toString ip ++ "." ++ (if fp < 10 then "0" else "") ++ toString fp

/-- `formatTime` from the source: a falsy input (absent / `null` / `0`)
yields `"N/A"`; otherwise the raw value is divided by 10, interpreted as
microseconds, and rendered at the first matching scale
(minutes, seconds, milliseconds, microseconds), 2 decimals each. -/
def formatTime (timeInMicroseconds : Option ℚ) : String :=
  match timeInMicroseconds with
  | none => "N/A"
  | some t =>
    if t = 0 then "N/A"
    else
      let us := t / 10
      let timeInMilliseconds := us / 1000
      let timeInSeconds := timeInMilliseconds / 1000
      let timeInMinutes := timeInSeconds / 60
      if timeInMinutes ≥ 1 then toFixed2 timeInMinutes ++ " min"
      else if timeInSeconds ≥ 1 then toFixed2 timeInSeconds ++ " s"
      else if timeInMilliseconds ≥ 1 then toFixed2 timeInMilliseconds ++ " ms"
      else toFixed2 us ++ " µs"

/-- `classifyCell` from the source.  JavaScript `x || d` defaulting: an
absent field and a present `0` both default (`percent_time || 0`,
`total_time || 0`, `memory_delta_mb || 0`, `total_hits || 0`, and
`total_hits || 1` in the average denominator). -/
def classifyCell (cellData : JsStats) : String :=
  let percent_runtime : ℚ := cellData.percent_time.getD 0
  let hits : ℕ := cellData.total_hits.getD 0
  let avg_time_per_hit : ℚ :=
    cellData.total_time.getD 0 / (if hits = 0 then 1 else (hits : ℚ))
  let total_hits : ℕ := hits
  let mem_impact : ℚ := cellData.memory_delta_mb.getD 0
  if percent_runtime > 30 then "Performance-Critical"
  else if avg_time_per_hit > 1000 then "CPU-Intensive"
  else if total_hits > 10000 ∧ avg_time_per_hit < 100 then "Loop-Intensive"
  else if mem_impact > 3 / 10 then "Memory-Intensive"
  else "Normal"

/-- `colorForCategory` from the source: a `switch` on the category string
whose `default` arm returns `"gray"`. -/
def colorForCategory (category : String) : String :=
  if category = "Performance-Critical" then "red"
  else if category = "CPU-Intensive" then "orange"
  else if category = "Loop-Intensive" then "green"
  else if category = "Memory-Intensive" then "purple"
  else "gray"

/-- One decoration as pushed onto the `decorations` array and stored in the
map: the (collapsed) range anchor `(line, col)` and the `after` render
options that the claims mention (`contentText`, `color`).  The constant
style fields (`fontStyle`, `margin`, `fontWeight`) carry no information. -/
structure AnnotationRecord where
  line : ℕ
  col : ℕ
  text : String
  color : String
  deriving DecidableEq

/-- One element of the report's `cells` array.  `lines` is the JSON object
mapping 1-based line numbers to per-line stats, kept in its (insertion =
iteration) order; the keys are the numeric values of the string keys
(`parseInt` of a non-numeric key gives `NaN`, which the bounds check drops
exactly like an out-of-range number, so such keys are not modelled
separately).  `lines := none` models a cell entry lacking the `lines`
property, on which `Object.entries` throws. -/
structure CellData extends JsStats where
  lines : Option (List (ℕ × JsStats)) := none
  deriving DecidableEq

/-- The decoded top-level report.  `cells := none` models a JSON document
with no `cells` property; a `none` element models a `null` (or otherwise
falsy) entry inside the array. -/
structure ProfilingData where
  cells : Option (List (Option CellData)) := none
  deriving DecidableEq

inductive CellKind where
  | code
  | markup
  deriving DecidableEq

/-- A notebook cell as seen through the host editor: its kind, the text of
its backing document (`getText()`), and the document URI string used as the
store key.  The host-object guards (`cell.document && cell.document.getText`)
always hold in this model. -/
structure NotebookCell where
  kind : CellKind
  source : String
  docUri : String
  deriving DecidableEq

/-- `cellDecorationsMap`: a JS `Map` keyed by document URI, modelled as an
association list in insertion order. -/
abbrev Store := List (String × List AnnotationRecord)

/-- `Map.get`. -/
def storeGet (st : Store) (uri : String) : Option (List AnnotationRecord) :=
  (st.find? (fun p => p.1 = uri)).map Prod.snd

/-- `Map.set`: update the first entry with this key in place (keeping its
position, as a JS `Map` keeps insertion order), else append a new entry. -/
def storeSet : Store → String → List AnnotationRecord → Store
  | [], uri, recs => [(uri, recs)]
  | p :: rest, uri, recs =>
    if p.1 = uri then (uri, recs) :: rest else p :: storeSet rest uri recs

/-- Auxiliary for `splitLines`: structural recursion over the character
list, accumulating the current segment in reverse. -/
def splitLinesAux : List Char → List Char → List String
  | [], acc => [String.mk acc.reverse]
  | c :: cs, acc =>
    if c = '\n' then String.mk acc.reverse :: splitLinesAux cs []
    else splitLinesAux cs (c :: acc)

/-- JavaScript `String.prototype.split('\n')`: the list of segments of `s`
between newline characters (always non-empty; `""` splits to `[""]`).
Agrees with `String.splitOn "\n"`, but is defined by structural recursion so
that it evaluates inside the kernel. -/
def splitLines (s : String) : List String := splitLinesAux s.data []

/-- The `contentText` of a per-line decoration: note the two spaces before
the bar in the source template, and that a falsy `percent` (absent or `0`)
renders as `N/A`. -/
def lineAnnotationText (lineData : JsStats) : String :=
  "⏱ " ++ formatTime lineData.time ++ "  | ⚡ " ++
    (match lineData.percent with
     | none => "N/A"
     | some p => if p = 0 then "N/A" else toFixed2 p) ++ "%"

/-- The per-cell body of the profiling loop: split the cell source on
newlines, push one decoration per in-bounds entry of `cellData.lines` in
iteration order, then push the cell-summary decoration.  Returns `none` when
`cellData.lines` is absent, modelling the `TypeError` thrown by
`Object.entries(undefined)`. -/
def buildCellDecorations (cellData : CellData) (src : String) :
    Option (List AnnotationRecord) :=
  match cellData.lines with
  | none => none
  | some entries =>
    let lines := splitLines src
    let decs := entries.filterMap (fun e =>
      let lineNumber : ℤ := (e.1 : ℤ) - 1
      if 0 ≤ lineNumber ∧ lineNumber < lines.length then
        let lineLength := (lines.getD lineNumber.toNat "").length
        some { line := lineNumber.toNat, col := lineLength,
               text := lineAnnotationText e.2,
               color := colorForCategory (classifyCell e.2) }
      else none)
    let totalTime : ℚ := cellData.total_time.getD 0
    let totalHits : ℕ := cellData.total_hits.getD 0
    let category := classifyCell cellData.toJsStats
    let color := colorForCategory category
    let summaryText := "Total time: ⏱ " ++ formatTime (some totalTime) ++
      " | Total hits: " ++ toString totalHits ++ " | Classification: " ++ category
    let lastLineIndex := lines.length - 1
    let lastLineLength := (lines.getD lastLineIndex "").length
    some (decs ++ [{ line := lastLineIndex, col := lastLineLength,
                     text := " | " ++ summaryText, color := color }])

/-- The cell loop of the run. `i` is `cellIndex`; a cell is processed only
when it is a code cell and `profilingCells[cellIndex]` is truthy (present
and not `null`); otherwise it is skipped.  A `none` from
`buildCellDecorations` aborts the loop with the store as mutated so far and
the success flag `false` (the exception propagates to the `catch`). -/
def runCells (pcells : List (Option CellData)) :
    List NotebookCell → ℕ → Store → Store × Bool
  | [], _, st => (st, true)
  | cell :: rest, i, st =>
    match cell.kind, (pcells.get? i).join with
    | CellKind.code, some cellData =>
      match buildCellDecorations cellData cell.source with
      | none => (st, false)
      | some decs => runCells pcells rest (i + 1) (storeSet st cell.docUri decs)
    | _, _ => runCells pcells rest (i + 1) st

/-- The `try` block of a profiling run, starting at
`cellDecorationsMap.clear()`.  `parsed = none` models `JSON.parse` throwing
on invalid bytes (after the clear).  When the decoded object lacks `cells`,
the first loop iteration throws on indexing `undefined`, so a non-empty
notebook fails and an empty notebook completes.  Returns the store after the
run and whether the run completed without an exception (on `false` the
`catch` reports the error to the user). -/
def runProfile (_store : Store) (nb : List NotebookCell)
    (parsed : Option ProfilingData) : Store × Bool :=
  match parsed with
  | none => (([] : Store), false)
  | some pd =>
    match pd.cells with
    | none => if nb.isEmpty then (([] : Store), true) else (([] : Store), false)
    | some pcells => runCells pcells nb 0 []

/-- `provideHover`: look the document up in the map, return the
`contentText` of the first decoration whose range starts on the queried
line; the queried column (`position.character`) is never read. -/
def provideHover (st : Store) (uri : String) (line : ℕ) (_col : ℕ) :
    Option String :=
  match storeGet st uri with
  | none => none
  | some decorations =>
    match decorations.find? (fun d => d.line = line) with
    | none => none
    | some m => some m.text

/-- The per-line `AnnotationRecord` emitted for an in-bounds entry
`(lineNumber, lineData)` of the report's `lines` map, against the split
source `lines`: anchored at the 0-based index `lineNumber - 1` and the
length of that source line, with the inline stats text, colored by the
classified category.  Used to state what `buildCellDecorations` pushes. -/
def lineRecordFor (lines : List String) (e : ℕ × JsStats) : AnnotationRecord :=
  { line := e.1 - 1,
    col := (lines.getD (e.1 - 1) "").length,
    text := lineAnnotationText e.2,
    color := colorForCategory (classifyCell e.2) }

/-- The cell-summary `AnnotationRecord` appended after the line records:
anchored at the last line of the split source, with the
`" | Total time: … | Total hits: … | Classification: …"` text, classified
and colored from the cell-level stats. -/
def summaryRecordFor (cellData : CellData) (lines : List String) : AnnotationRecord :=
  { line := lines.length - 1,
    col := (lines.getD (lines.length - 1) "").length,
    text := " | " ++ ("Total time: ⏱ " ++ formatTime (some (cellData.total_time.getD 0)) ++
      " | Total hits: " ++ toString (cellData.total_hits.getD 0) ++
      " | Classification: " ++ classifyCell cellData.toJsStats),
    color := colorForCategory (classifyCell cellData.toJsStats) }

/-- The classifier as the specification words it: absent fields default
to 0, the hit count defaults to 1 in the average-time-per-hit denominator
(`total_time / max(total_hits, 1)`), five rules in order, first match
wins.  Stated for comparison with `classifyCell`. -/
def claimClassify (s : JsStats) : String :=
  let percent_time : ℚ := s.percent_time.getD 0
  let total_hits : ℕ := s.total_hits.getD 0
  let avg : ℚ := s.total_time.getD 0 / ((max total_hits 1 : ℕ) : ℚ)
  let memory_delta_mb : ℚ := s.memory_delta_mb.getD 0
  if percent_time > 30 then "Performance-Critical"
  else if avg > 1000 then "CPU-Intensive"
  else if total_hits > 10000 ∧ avg < 100 then "Loop-Intensive"
  else if memory_delta_mb > 3 / 10 then "Memory-Intensive"
  else "Normal"

/-- The document URIs of the cells a run processes (code cells whose
report entry at the same position is present and non-null), in notebook
order, starting the report lookup at index `i`.  Mirrors the guard of
`runCells`. -/
def touchedUris (pcells : List (Option CellData)) :
    List NotebookCell → ℕ → List String
  | [], _ => []
  | cell :: rest, i =>
    match cell.kind, (pcells.get? i).join with
    | CellKind.code, some _ => cell.docUri :: touchedUris pcells rest (i + 1)
    | _, _ => touchedUris pcells rest (i + 1)

/-! Helper lemmas. -/

/-- JavaScript `total_hits || 1` agrees with `max(total_hits, 1)` on
non-negative integers. -/
theorem jsHitsDenominator (h : ℕ) :
    (if h = 0 then (1 : ℚ) else (h : ℚ)) = ((max h 1 : ℕ) : ℚ) := by
  rcases Nat.eq_zero_or_pos h with h0 | h0
  · subst h0; norm_num
  · rw [if_neg (Nat.pos_iff_ne_zero.mp h0), Nat.max_eq_left h0]

/-- Evaluating `toFixed2` once the scaled floor is known. -/
theorem toFixed2_of_floor (q : ℚ) (n : ℤ) (h : ⌊q * 100 + 1 / 2⌋ = n) :
    toFixed2 q = toString (n / 100) ++ "." ++
      (if (n % 100).natAbs < 10 then "0" else "") ++ toString (n % 100).natAbs := by
  simp only [toFixed2, h]

theorem toFixed2_one : toFixed2 1 = "1.00" := by
  have h : ⌊(1 : ℚ) * 100 + 1 / 2⌋ = (100 : ℤ) := by
    rw [Int.floor_eq_iff]; norm_num
  rw [toFixed2_of_floor 1 100 h]
  decide

theorem toFixed2_two : toFixed2 2 = "2.00" := by
  have h : ⌊(2 : ℚ) * 100 + 1 / 2⌋ = (200 : ℤ) := by
    rw [Int.floor_eq_iff]; norm_num
  rw [toFixed2_of_floor 2 200 h]
  decide

theorem toFixed2_five : toFixed2 5 = "5.00" := by
  have h : ⌊(5 : ℚ) * 100 + 1 / 2⌋ = (500 : ℤ) := by
    rw [Int.floor_eq_iff]; norm_num
  rw [toFixed2_of_floor 5 500 h]
  decide

theorem formatTime_10000 : formatTime (some 10000) = "1.00 ms" := by
  norm_num [formatTime]
  rw [toFixed2_one]
  decide

theorem formatTime_600000000 : formatTime (some 600000000) = "1.00 min" := by
  norm_num [formatTime]
  rw [toFixed2_one]
  decide

/-! Claims. -/

/-- Claim C2: `classifyCell` is a pure total function over any stats
record, equal to the specification's five-rule cascade with absent fields
defaulting to 0 and the hit count defaulting to 1 in the
average-time-per-hit denominator (`total_time / max(total_hits, 1)`);
every record with `percent_time = 35` is Performance-Critical regardless of
its other fields, `{total_time: 5000, total_hits: 1, memory_delta_mb: 0}`
is CPU-Intensive, `{total_hits: 20000, total_time: 500}` is Loop-Intensive,
and the all-zero record is Normal. -/
theorem claim_C2 :
    (∀ s : JsStats, classifyCell s = claimClassify s) ∧
    (∀ s : JsStats, s.percent_time = some 35 →
      classifyCell s = "Performance-Critical") ∧
    classifyCell { total_time := some 5000, total_hits := some 1, memory_delta_mb := some 0 } = "CPU-Intensive" ∧
    classifyCell { total_hits := some 20000, total_time := some 500 } = "Loop-Intensive" ∧
    classifyCell { percent_time := some 0, total_time := some 0, total_hits := some 0, memory_delta_mb := some 0 } = "Normal" := by
  refine ⟨?_, ?_, ?_, ?_, ?_⟩
  · intro s
    simp only [classifyCell, claimClassify, jsHitsDenominator]
  · intro s h
    simp only [classifyCell, h, Option.getD_some]
    norm_num
  · norm_num [classifyCell]
  · norm_num [classifyCell]
  · norm_num [classifyCell]

/-- Witness for C2: the rule-precedence part applied to a concrete record
with every field present. -/
theorem claim_C2_witness :
    classifyCell { percent_time := some 35, total_time := some 7, total_hits := some 3, memory_delta_mb := some 9, time := some 1, percent := some 2 } = "Performance-Critical" :=
  claim_C2.2.1 _ rfl

/-- Claim C6: `formatTime` returns the literal `"N/A"` for absent or zero
input; otherwise it divides the raw value by 10, interprets it as
microseconds, and renders 2 decimal places at the first matching scale:
≥ 60000000 µs as minutes, else ≥ 1000000 µs as seconds, else ≥ 1000 µs as
milliseconds, else as microseconds.  `formatTime 0 = "N/A"`,
`formatTime 10000 = "1.00 ms"`, `formatTime 600000000 = "1.00 min"`. -/
theorem claim_C6 :
    formatTime none = "N/A" ∧
    formatTime (some 0) = "N/A" ∧
    (∀ q : ℚ, q ≠ 0 →
      formatTime (some q) =
        (if q / 10 ≥ 60000000 then toFixed2 (q / 10 / 60000000) ++ " min"
         else if q / 10 ≥ 1000000 then toFixed2 (q / 10 / 1000000) ++ " s"
         else if q / 10 ≥ 1000 then toFixed2 (q / 10 / 1000) ++ " ms"
         else toFixed2 (q / 10) ++ " µs")) ∧
    formatTime (some 10000) = "1.00 ms" ∧
    formatTime (some 600000000) = "1.00 min" := by
  refine ⟨rfl, by norm_num [formatTime], ?_, formatTime_10000,
    formatTime_600000000⟩
  intro q hq
  have e1 : q / 10 / 1000 / 1000 / 60 = q / 10 / 60000000 := by ring
  have e2 : q / 10 / 1000 / 1000 = q / 10 / 1000000 := by ring
  have c1 : ((1 : ℚ) ≤ q / 10 / 60000000) = ((60000000 : ℚ) ≤ q / 10) :=
    propext (one_le_div (by norm_num))
  have c2 : ((1 : ℚ) ≤ q / 10 / 1000000) = ((1000000 : ℚ) ≤ q / 10) :=
    propext (one_le_div (by norm_num))
  have c3 : ((1 : ℚ) ≤ q / 10 / 1000) = ((1000 : ℚ) ≤ q / 10) :=
    propext (one_le_div (by norm_num))
  simp only [formatTime, hq, if_false, ge_iff_le]
  rw [e1, e2]
  simp only [c1, c2, c3]

/-- Witness for C6: the scaling rule applied at the concrete raw value 20
(2 µs after the division by 10). -/
theorem claim_C6_witness : formatTime (some 20) = "2.00 µs" := by
  have h := claim_C6.2.2.1 20 (by norm_num)
  rw [h]
  norm_num
  rw [toFixed2_two]
  decide

/-- A run over a report whose entries are all absent or null skips every
cell: no exception, and no document is ever written. -/
theorem runCells_skip_all (pcells : List (Option CellData))
    (h : ∀ j, (pcells.get? j).join = none) :
    ∀ (nb : List NotebookCell) (i : ℕ) (st : Store),
      runCells pcells nb i st = (st, true)
  | [], _, _ => rfl
  | cell :: rest, i, st => by
    simp only [runCells, h i]
    cases cell.kind <;> exact runCells_skip_all pcells h rest (i + 1) st

/-- Claim C1 counterexample: with one prior store entry and unparsable
report bytes the run does fail, but the store ends up empty instead of
still holding its prior entry; moreover a report that merely lacks `cells`
makes the run fail only when the notebook is non-empty (an empty notebook
completes successfully). -/
theorem claim_C1_counterexample :
    (runProfile [("file:///nb#c0", [{ line := 0, col := 0, text := "old", color := "gray" }])] [{ kind := CellKind.code, source := "x = 1", docUri := "file:///nb#c0" }] none).2 = false ∧
    (runProfile [("file:///nb#c0", [{ line := 0, col := 0, text := "old", color := "gray" }])] [{ kind := CellKind.code, source := "x = 1", docUri := "file:///nb#c0" }] none).1 ≠ [("file:///nb#c0", [{ line := 0, col := 0, text := "old", color := "gray" }])] ∧
    (runProfile [] [{ kind := CellKind.markup, source := "", docUri := "u" }] (some { cells := none })).2 = false ∧
    (runProfile [] [] (some { cells := none })).2 = true := by
  exact ⟨rfl, by decide, rfl, rfl⟩

/-- Claim C1 (amended): when the report bytes are not valid structured
data the run fails and the error is reported, and when the decoded report
lacks a `cells` sequence the run fails provided the notebook has at least
one cell (with an empty notebook it completes); in either case the store
was already cleared at the start of the run, so it is left empty rather
than holding the entries it held before the run began. -/
theorem claim_C1_amended :
    (∀ st nb, runProfile st nb none = ([], false)) ∧
    (∀ st nb pd, pd.cells = none → nb ≠ [] →
      runProfile st nb (some pd) = ([], false)) ∧
    (∀ st pd, pd.cells = none → runProfile st [] (some pd) = ([], true)) := by
  refine ⟨fun st nb => rfl, ?_, ?_⟩
  · intro st nb pd h hnb
    cases nb with
    | nil => exact absurd rfl hnb
    | cons c rest => simp [runProfile, h]
  · intro st pd h
    simp [runProfile, h]

/-- Witness for C1: a notebook with one markup cell against a decoded
report lacking `cells`: the run fails and leaves the store empty. -/
theorem claim_C1_witness :
    runProfile [] [{ kind := CellKind.markup, source := "", docUri := "u" }] (some { cells := none }) = ([], false) :=
  claim_C1_amended.2.1 [] _ _ rfl (by decide)

/-- Claim C5 counterexample: a code cell whose report entry is present but
lacks the per-line map does not leave the run successful: the run aborts
with an error (`Object.entries` throws on the absent `lines`). -/
theorem claim_C5_counterexample :
    (runProfile [] [{ kind := CellKind.code, source := "x", docUri := "u" }] (some { cells := some [some { lines := none }] })).2 = false := rfl

/-- Claim C5 (amended): in any run, a notebook cell whose report entry is
absent (index at or beyond the report length, or a null entry) is skipped
silently per record: it contributes no records, leaves the store as it
was, and the loop continues with the remaining cells exactly as if that
cell were not there, so a run whose only gaps are absent entries is
counted successful; but a present code-cell entry missing its per-line
`lines` data is not skipped: the loop aborts at that cell with the store
as written so far and the run reported failed, processing no later cell
regardless of what follows. -/
theorem claim_C5_amended :
    (∀ (pcells : List (Option CellData)) (cell : NotebookCell)
      (rest : List NotebookCell) (i : ℕ) (st : Store),
      (pcells.get? i).join = none →
      runCells pcells (cell :: rest) i st = runCells pcells rest (i + 1) st) ∧
    (∀ st nb pcells, (∀ j, (pcells.get? j).join = none) →
      runProfile st nb (some { cells := some pcells }) = ([], true)) ∧
    (∀ (pcells : List (Option CellData)) (cell : NotebookCell)
      (rest : List NotebookCell) (i : ℕ) (st : Store)
      (cellData : CellData),
      cell.kind = CellKind.code →
      (pcells.get? i).join = some cellData → cellData.lines = none →
      runCells pcells (cell :: rest) i st = (st, false)) ∧
    ((runProfile [] [{ kind := CellKind.code, source := "a", docUri := "uA" }, { kind := CellKind.code, source := "b", docUri := "uB" }] (some { cells := some [none, some { lines := some [] }] })).1.map Prod.fst = ["uB"] ∧
      (runProfile [] [{ kind := CellKind.code, source := "a", docUri := "uA" }, { kind := CellKind.code, source := "b", docUri := "uB" }] (some { cells := some [none, some { lines := some [] }] })).2 = true) ∧
    runProfile [] [{ kind := CellKind.code, source := "a", docUri := "uA" }, { kind := CellKind.code, source := "b", docUri := "uB" }] (some { cells := some [some { lines := none }, some { lines := some [] }] }) = ([], false) := by
  refine ⟨?_, ?_, ?_, ⟨by decide, rfl⟩, rfl⟩
  · intro pcells cell rest i st h
    rw [runCells]
    cases cell.kind <;> rw [h]
  · intro st nb pcells h
    show runCells pcells nb 0 [] = ([], true)
    exact runCells_skip_all pcells h nb 0 []
  · intro pcells cell rest i st cellData hk hj hlines
    have hbd : buildCellDecorations cellData cell.source = none := by
      simp only [buildCellDecorations, hlines]
    rw [runCells]
    simp only [hk, hj, hbd]

/-- Witness for C5: the per-cell skip applied mid-run — at index 1 of a
two-entry report whose second entry is null, with one cell left and a
non-empty store, the loop step is exactly the loop on the remaining
cells. -/
theorem claim_C5_witness :
    runCells [none, none] [{ kind := CellKind.code, source := "x", docUri := "u" }] 1 [("w", [])] = runCells [none, none] [] 2 [("w", [])] :=
  claim_C5_amended.1 [none, none] _ [] 1 [("w", [])] rfl

/-- Claim C9: running the pipeline twice with identical notebook and
report yields a store whose records are structurally equal after both
runs (the run clears the store first and depends only on the notebook and
the parsed report, never on the prior store). -/
theorem claim_C9 (st : Store) (nb : List NotebookCell)
    (pd : Option ProfilingData) :
    (runProfile (runProfile st nb pd).1 nb pd).1 = (runProfile st nb pd).1 := rfl

/-- Claim C10: the hover resolver ignores the queried column entirely;
for a stored document it returns the text of the first record whose
anchor line equals the queried line (so a record occurring earlier in the
stored sequence — e.g. a line record before the cell summary on the
cell's last line — wins), and it returns absent when the document has no
stored records or no stored record's anchor line matches. -/
theorem claim_C10 :
    (∀ st uri line c1 c2, provideHover st uri line c1 = provideHover st uri line c2) ∧
    (∀ st uri line col, storeGet st uri = none →
      provideHover st uri line col = none) ∧
    (∀ st uri line col decs, storeGet st uri = some decs →
      provideHover st uri line col =
        (decs.find? (fun d => d.line = line)).map (fun d => d.text)) ∧
    (∀ st uri line col pre r post, storeGet st uri = some (pre ++ r :: post) →
      (∀ r2 ∈ pre, r2.line ≠ line) → r.line = line →
      provideHover st uri line col = some r.text) ∧
    (∀ st uri line col decs, storeGet st uri = some decs →
      (∀ r ∈ decs, r.line ≠ line) → provideHover st uri line col = none) := by
  refine ⟨fun st uri line c1 c2 => rfl, ?_, ?_, ?_, ?_⟩
  · intro st uri line col h
    simp [provideHover, h]
  · intro st uri line col decs h
    cases hf : decs.find? (fun d => d.line = line) <;>
      simp [provideHover, h, hf]
  · intro st uri line col pre r post h hpre hr
    have h1 : pre.find? (fun d => decide (d.line = line)) = none := by
      rw [List.find?_eq_none]
      intro x hx
      simpa using hpre x hx
    have h2 : List.find? (fun d => decide (d.line = line)) (r :: post) = some r :=
      List.find?_cons_of_pos _ (by simpa using hr)
    simp [provideHover, h, List.find?_append, h1, h2]
  · intro st uri line col decs h hall
    have h1 : decs.find? (fun d => decide (d.line = line)) = none := by
      rw [List.find?_eq_none]
      intro x hx
      simpa using hall x hx
    simp [provideHover, h, h1]

/-- Witness for C10: on a document whose stored sequence holds a line
record and then a summary record anchored on the same line, hover at that
line (any column) returns the line record's text. -/
theorem claim_C10_witness :
    provideHover [("d", [{ line := 2, col := 3, text := "lineRec", color := "gray" }, { line := 2, col := 3, text := "summary", color := "red" }])] "d" 2 7 = some "lineRec" :=
  claim_C10.2.2.2.1 _ "d" 2 7 [] { line := 2, col := 3, text := "lineRec", color := "gray" } [{ line := 2, col := 3, text := "summary", color := "red" }] rfl (by simp) rfl

/-- The per-line `forEach` of the builder: pushing one record per
in-bounds entry is filtering the entries map to the in-bounds ones
(1-based key between 1 and the line count) and mapping each to its
record. -/
theorem filterMap_lineRecords (lines : List String)
    (entries : List (ℕ × JsStats)) :
    (entries.filterMap (fun e =>
      let lineNumber : ℤ := (e.1 : ℤ) - 1
      if 0 ≤ lineNumber ∧ lineNumber < lines.length then
        let lineLength := (lines.getD lineNumber.toNat "").length
        some { line := lineNumber.toNat, col := lineLength,
               text := lineAnnotationText e.2,
               color := colorForCategory (classifyCell e.2) }
      else none)) =
      (entries.filter fun e => decide (1 ≤ e.1 ∧ e.1 ≤ lines.length)).map
        (lineRecordFor lines) := by
  induction entries with
  | nil => rfl
  | cons a t ih =>
    by_cases hp : 0 ≤ (a.1 : ℤ) - 1 ∧ (a.1 : ℤ) - 1 < (lines.length : ℤ)
    · have ht : ((a.1 : ℤ) - 1).toNat = a.1 - 1 := by omega
      have hb : decide (1 ≤ a.1 ∧ a.1 ≤ lines.length) = true :=
        decide_eq_true (by omega)
      rw [List.filterMap_cons, List.filter_cons, if_pos hb]
      simp only [if_pos hp, List.map_cons, ih, ht, lineRecordFor]
    · have hb : decide (1 ≤ a.1 ∧ a.1 ≤ lines.length) = false :=
        decide_eq_false (by omega)
      rw [List.filterMap_cons, List.filter_cons]
      simp only [if_neg hp, hb, Bool.false_eq_true, if_false, ih]

/-- What `buildCellDecorations` produces on a cell entry with a `lines`
map: the in-bounds line records in iteration order, then the one
cell-summary record. -/
theorem buildCellDecorations_eq (cellData : CellData)
    (entries : List (ℕ × JsStats)) (src : String)
    (h : cellData.lines = some entries) :
    buildCellDecorations cellData src =
      some (((entries.filter fun e =>
          decide (1 ≤ e.1 ∧ e.1 ≤ (splitLines src).length)).map
            (lineRecordFor (splitLines src))) ++
        [summaryRecordFor cellData (splitLines src)]) := by
  simp only [buildCellDecorations, h, filterMap_lineRecords]
  rfl

theorem splitLinesAux_ne_nil : ∀ (cs acc : List Char),
    splitLinesAux cs acc ≠ []
  | [], _ => by simp [splitLinesAux]
  | c :: cs, acc => by
    simp only [splitLinesAux]
    by_cases h : c = '\n'
    · simp [h]
    · simpa [h] using splitLinesAux_ne_nil cs (c :: acc)

/-- Splitting a source text on newlines always yields at least one line
(as `split` does in JavaScript), so the cell-summary anchor is
well-defined. -/
theorem splitLines_ne_nil (s : String) : splitLines s ≠ [] :=
  splitLinesAux_ne_nil s.data []

theorem getD_last_eq_getLast (l : List String) (h : l ≠ []) :
    l.getD (l.length - 1) "" = l.getLast h := by
  have hlen : l.length - 1 < l.length := by
    cases l with
    | nil => exact absurd rfl h
    | cons a t => simp
  rw [List.getD_eq_getElem?_getD, List.getElem?_eq_getElem hlen,
    Option.getD_some, List.getLast_eq_getElem]

/-- Claim C3: for every processed cell the builder emits exactly one line
record per entry of the report's `lines` map whose 1-based key lands in
the newline-split source (converted to a 0-based index), in the map's
iteration order, silently skipping out-of-bounds entries, so the number
of line records is at most the number of entries with equality exactly
when no out-of-bounds entry exists; for a 3-line cell with report lines
at keys 1 and 3 this produces records anchored at line indices 0, 2 and 2
(two line records plus the summary). -/
theorem claim_C3 :
    (∀ (cellData : CellData) (entries : List (ℕ × JsStats)) (src : String),
      cellData.lines = some entries →
      buildCellDecorations cellData src =
        some (((entries.filter fun e =>
            decide (1 ≤ e.1 ∧ e.1 ≤ (splitLines src).length)).map
              (lineRecordFor (splitLines src))) ++
          [summaryRecordFor cellData (splitLines src)]) ∧
      ((entries.filter fun e =>
          decide (1 ≤ e.1 ∧ e.1 ≤ (splitLines src).length)).map
            (lineRecordFor (splitLines src))).length ≤ entries.length ∧
      (((entries.filter fun e =>
          decide (1 ≤ e.1 ∧ e.1 ≤ (splitLines src).length)).map
            (lineRecordFor (splitLines src))).length = entries.length ↔
        ∀ e ∈ entries, 1 ≤ e.1 ∧ e.1 ≤ (splitLines src).length)) ∧
    ((buildCellDecorations { lines := some [(1, ({} : JsStats)), (3, ({} : JsStats))] } "a\nbb\nccc").getD []).map (fun r => r.line) = [0, 2, 2] := by
  constructor
  · intro cellData entries src h
    refine ⟨buildCellDecorations_eq cellData entries src h, ?_, ?_⟩
    · rw [List.length_map]
      exact List.length_filter_le _ _
    · rw [List.length_map]
      constructor
      · intro hl
        have heq : entries.filter (fun e =>
            decide (1 ≤ e.1 ∧ e.1 ≤ (splitLines src).length)) = entries :=
          (List.filter_sublist entries).eq_of_length hl
        intro e he
        simpa using List.filter_eq_self.mp heq e he
      · intro hall
        have heq : entries.filter (fun e =>
            decide (1 ≤ e.1 ∧ e.1 ≤ (splitLines src).length)) = entries :=
          List.filter_eq_self.mpr (fun a ha => by simpa using hall a ha)
        rw [heq]
  · decide

/-- Witness for C3: the characterization applied to the concrete 3-line
cell with report line keys 1 and 3. -/
theorem claim_C3_witness :
    buildCellDecorations { lines := some [(1, ({} : JsStats)), (3, ({} : JsStats))] } "a\nbb\nccc" =
      some ((([(1, ({} : JsStats)), (3, ({} : JsStats))].filter fun e =>
          decide (1 ≤ e.1 ∧ e.1 ≤ (splitLines "a\nbb\nccc").length)).map
            (lineRecordFor (splitLines "a\nbb\nccc"))) ++
        [summaryRecordFor { lines := some [(1, ({} : JsStats)), (3, ({} : JsStats))] } (splitLines "a\nbb\nccc")]) :=
  (claim_C3.1 _ _ "a\nbb\nccc" rfl).1

/-- Claim C4: after the line records of a processed cell exactly one
cell-summary record is appended last, anchored at line index
`lineCount - 1` with column the length of the last line, with the
`" | Total time: ⏱ … | Total hits: … | Classification: …"` text whose
category — and the record's color — come from classifying the cell-level
stats. -/
theorem claim_C4 :
    ∀ (cellData : CellData) (entries : List (ℕ × JsStats)) (src : String),
      cellData.lines = some entries →
      buildCellDecorations cellData src =
        some (((entries.filter fun e =>
            decide (1 ≤ e.1 ∧ e.1 ≤ (splitLines src).length)).map
              (lineRecordFor (splitLines src))) ++
          [summaryRecordFor cellData (splitLines src)]) ∧
      (summaryRecordFor cellData (splitLines src)).line =
        (splitLines src).length - 1 ∧
      (summaryRecordFor cellData (splitLines src)).col =
        ((splitLines src).getLast (splitLines_ne_nil src)).length ∧
      (summaryRecordFor cellData (splitLines src)).text =
        " | Total time: ⏱ " ++ formatTime (some (cellData.total_time.getD 0)) ++
          " | Total hits: " ++ toString (cellData.total_hits.getD 0) ++
          " | Classification: " ++ classifyCell cellData.toJsStats ∧
      (summaryRecordFor cellData (splitLines src)).color =
        colorForCategory (classifyCell cellData.toJsStats) := by
  intro cellData entries src h
  refine ⟨buildCellDecorations_eq cellData entries src h, rfl, ?_, ?_, rfl⟩
  · simp only [summaryRecordFor,
      getD_last_eq_getLast (splitLines src) (splitLines_ne_nil src)]
  · simp only [summaryRecordFor, String.append_assoc]
    rw [← String.append_assoc]
    have hm : (" | " ++ "Total time: ⏱ " : String) = " | Total time: ⏱ " := by
      decide
    rw [hm]

/-- Witness for C4: the summary-record facts at a concrete one-line empty
cell with an empty report `lines` map. -/
theorem claim_C4_witness :
    (summaryRecordFor { lines := some [] } (splitLines "")).line =
      (splitLines "").length - 1 ∧
    (summaryRecordFor { lines := some [] } (splitLines "")).col =
      ((splitLines "").getLast (splitLines_ne_nil "")).length :=
  ⟨(claim_C4 { lines := some [] } [] "" rfl).2.1,
   (claim_C4 { lines := some [] } [] "" rfl).2.2.1⟩

theorem lineAnnotationText_5 :
    lineAnnotationText { time := some 10000, percent := some 5 } =
      "⏱ 1.00 ms  | ⚡ 5.00%" := by
  have h5 : ((5 : ℚ) = 0) = False := by norm_num
  simp only [lineAnnotationText, formatTime_10000, h5, if_false, toFixed2_five]
  decide

theorem lineAnnotationText_0 :
    lineAnnotationText { time := some 10000, percent := some 0 } =
      "⏱ 1.00 ms  | ⚡ N/A%" := by
  simp only [lineAnnotationText, formatTime_10000, if_pos rfl]
  decide

/-- Claim C7 counterexample: the emitted line record's text has two
spaces before the bar, not one as the claim's template states, and a
present-but-zero `percent` also renders as `N/A`, not `0.00`. -/
theorem claim_C7_counterexample :
    (((buildCellDecorations { lines := some [(1, { time := some 10000, percent := some 5 })] } "x").getD []).map (fun r => r.text)).head? = some "⏱ 1.00 ms  | ⚡ 5.00%" ∧
    "⏱ 1.00 ms  | ⚡ 5.00%" ≠ "⏱ 1.00 ms | ⚡ 5.00%" ∧
    (((buildCellDecorations { lines := some [(1, { time := some 10000, percent := some 0 })] } "x").getD []).map (fun r => r.text)).head? = some "⏱ 1.00 ms  | ⚡ N/A%" := by
  refine ⟨?_, by decide, ?_⟩
  · show some (lineAnnotationText { time := some 10000, percent := some 5 }) =
      some "⏱ 1.00 ms  | ⚡ 5.00%"
    rw [lineAnnotationText_5]
  · show some (lineAnnotationText { time := some 10000, percent := some 0 }) =
      some "⏱ 1.00 ms  | ⚡ N/A%"
    rw [lineAnnotationText_0]

/-- Claim C7 (amended): every emitted line record is anchored at
`(lineIndex, length of that source line)` with text
`"⏱ {format(line.time)}  | ⚡ {percent to 2 decimals, or N/A if absent
or zero}%"` (two spaces before the bar), and carries the color of the
line's classified category per the fixed table: Performance-Critical red,
CPU-Intensive orange, Loop-Intensive green, Memory-Intensive purple, and
gray for Normal or any unknown category. -/
theorem claim_C7_amended :
    (∀ (cellData : CellData) (entries : List (ℕ × JsStats)) (src : String)
      (decs : List AnnotationRecord),
      cellData.lines = some entries →
      buildCellDecorations cellData src = some decs →
      ∀ r ∈ decs.dropLast, ∃ e, e ∈ entries ∧
        1 ≤ e.1 ∧ e.1 ≤ (splitLines src).length ∧
        r.line = e.1 - 1 ∧
        r.col = ((splitLines src).getD (e.1 - 1) "").length ∧
        r.text = "⏱ " ++ formatTime e.2.time ++ "  | ⚡ " ++
          (match e.2.percent with
           | none => "N/A"
           | some p => if p = 0 then "N/A" else toFixed2 p) ++ "%" ∧
        r.color = colorForCategory (classifyCell e.2)) ∧
    colorForCategory "Performance-Critical" = "red" ∧
    colorForCategory "CPU-Intensive" = "orange" ∧
    colorForCategory "Loop-Intensive" = "green" ∧
    colorForCategory "Memory-Intensive" = "purple" ∧
    colorForCategory "Normal" = "gray" ∧
    (∀ c, c ≠ "Performance-Critical" → c ≠ "CPU-Intensive" →
      c ≠ "Loop-Intensive" → c ≠ "Memory-Intensive" →
      colorForCategory c = "gray") := by
  refine ⟨?_, by decide, by decide, by decide, by decide, by decide, ?_⟩
  · intro cellData entries src decs h hb
    rw [buildCellDecorations_eq cellData entries src h] at hb
    have hdecs := Option.some.inj hb
    subst hdecs
    rw [List.dropLast_concat]
    intro r hr
    obtain ⟨e, he, rfl⟩ := List.mem_map.mp hr
    have hef := List.mem_filter.mp he
    have hbounds : 1 ≤ e.1 ∧ e.1 ≤ (splitLines src).length := by
      simpa using hef.2
    exact ⟨e, hef.1, hbounds.1, hbounds.2, rfl, rfl, rfl, rfl⟩
  · intro c h1 h2 h3 h4
    simp [colorForCategory, h1, h2, h3, h4]

/-- Witness for C7: the unknown-category fallback of the color table at a
concrete string. -/
theorem claim_C7_witness : colorForCategory "Uncategorized" = "gray" :=
  claim_C7_amended.2.2.2.2.2.2 "Uncategorized" (by decide) (by decide)
    (by decide) (by decide)

theorem storeGet_nil (uri : String) : storeGet [] uri = none := rfl

theorem storeGet_cons (p : String × List AnnotationRecord) (tl : Store)
    (v : String) :
    storeGet (p :: tl) v = if p.1 = v then some p.2 else storeGet tl v := by
  by_cases h : p.1 = v <;> simp [storeGet, List.find?_cons, h]

/-- `Map.get` after `Map.set`: the set key reads back the new records and
every other key is unaffected. -/
theorem storeGet_storeSet (st : Store) (u : String)
    (r : List AnnotationRecord) (v : String) :
    storeGet (storeSet st u r) v = if v = u then some r else storeGet st v := by
  induction st with
  | nil =>
    by_cases h : v = u
    · simp [storeSet, storeGet_cons, h]
    · simp [storeSet, storeGet_cons, h, Ne.symm h, storeGet_nil]
  | cons p tl ih =>
    by_cases h1 : p.1 = u
    · rw [storeSet, if_pos h1]
      by_cases h : v = u
      · simp [storeGet_cons, h]
      · simp [storeGet_cons, h, Ne.symm h, h1]
    · rw [storeSet, if_neg h1]
      by_cases h : v = u
      · subst h
        simp [storeGet_cons, ih, h1]
      · simp [storeGet_cons, ih, h]

theorem mem_keys_storeSet (st : Store) (u : String)
    (r : List AnnotationRecord) (v : String) :
    v ∈ (storeSet st u r).map Prod.fst ↔ v ∈ st.map Prod.fst ∨ v = u := by
  induction st with
  | nil => simp [storeSet]
  | cons p tl ih =>
    by_cases h1 : p.1 = u <;> simp [storeSet, h1, ih] <;> tauto

/-- `Map.set` keeps the keys of the store pairwise distinct. -/
theorem nodup_keys_storeSet (st : Store) (u : String)
    (r : List AnnotationRecord) (h : (st.map Prod.fst).Nodup) :
    ((storeSet st u r).map Prod.fst).Nodup := by
  induction st with
  | nil => simp [storeSet]
  | cons p tl ih =>
    simp only [List.map_cons, List.nodup_cons] at h
    by_cases h1 : p.1 = u
    · simp only [storeSet, if_pos h1, List.map_cons, List.nodup_cons]
      exact ⟨h1 ▸ h.1, h.2⟩
    · simp only [storeSet, if_neg h1, List.map_cons, List.nodup_cons]
      refine ⟨?_, ih h.2⟩
      intro hmem
      rcases (mem_keys_storeSet tl u r p.1).mp hmem with hm | hm
      · exact h.1 hm
      · exact h1 hm

/-- After a cell loop that completes without an exception, a document is
present in the store exactly when it was present before the loop or its
cell was processed by the loop. -/
theorem runCells_isSome (pcells : List (Option CellData)) :
    ∀ (nb : List NotebookCell) (i : ℕ) (st : Store),
      (runCells pcells nb i st).2 = true →
      ∀ uri, ((storeGet (runCells pcells nb i st).1 uri).isSome = true ↔
        (storeGet st uri).isSome = true ∨ uri ∈ touchedUris pcells nb i)
  | [], i, st, h, uri => by simp [runCells, touchedUris]
  | cell :: rest, i, st, h, uri => by
    rcases hj : (pcells.get? i).join with _ | cellData
    · have hrun : runCells pcells (cell :: rest) i st =
          runCells pcells rest (i + 1) st := by
        rw [runCells]
        cases cell.kind <;> rw [hj]
      have htou : touchedUris pcells (cell :: rest) i =
          touchedUris pcells rest (i + 1) := by
        rw [touchedUris]
        cases cell.kind <;> rw [hj]
      rw [hrun] at h ⊢
      rw [htou]
      exact runCells_isSome pcells rest (i + 1) st h uri
    · cases hk : cell.kind
      case code =>
        have htou : touchedUris pcells (cell :: rest) i =
            cell.docUri :: touchedUris pcells rest (i + 1) := by
          rw [touchedUris, hk, hj]
        rcases hbd : buildCellDecorations cellData cell.source with _ | decs
        · have hrun : runCells pcells (cell :: rest) i st = (st, false) := by
            rw [runCells]
            simp only [hk, hj, hbd]
          rw [hrun] at h
          exact absurd h (by simp)
        · have hrun : runCells pcells (cell :: rest) i st =
              runCells pcells rest (i + 1) (storeSet st cell.docUri decs) := by
            rw [runCells]
            simp only [hk, hj, hbd]
          rw [hrun] at h ⊢
          rw [htou]
          have ih := runCells_isSome pcells rest (i + 1)
            (storeSet st cell.docUri decs) h uri
          rw [ih, storeGet_storeSet]
          by_cases he : uri = cell.docUri
          · simp [he]
          · simp only [he, if_false, List.mem_cons, false_or]
      case markup =>
        have hrun : runCells pcells (cell :: rest) i st =
            runCells pcells rest (i + 1) st := by
          rw [runCells, hk, hj]
        have htou : touchedUris pcells (cell :: rest) i =
            touchedUris pcells rest (i + 1) := by
          rw [touchedUris, hk, hj]
        rw [hrun] at h ⊢
        rw [htou]
        exact runCells_isSome pcells rest (i + 1) st h uri

/-- The cell loop preserves distinctness of the stored document keys. -/
theorem runCells_nodup (pcells : List (Option CellData)) :
    ∀ (nb : List NotebookCell) (i : ℕ) (st : Store),
      (st.map Prod.fst).Nodup →
      (((runCells pcells nb i st).1.map Prod.fst)).Nodup
  | [], i, st, h => by simpa [runCells] using h
  | cell :: rest, i, st, h => by
    rcases hj : (pcells.get? i).join with _ | cellData
    · have hrun : runCells pcells (cell :: rest) i st =
          runCells pcells rest (i + 1) st := by
        rw [runCells]
        cases cell.kind <;> rw [hj]
      rw [hrun]
      exact runCells_nodup pcells rest (i + 1) st h
    · cases hk : cell.kind
      case code =>
        rcases hbd : buildCellDecorations cellData cell.source with _ | decs
        · have hrun : runCells pcells (cell :: rest) i st = (st, false) := by
            rw [runCells]
            simp only [hk, hj, hbd]
          rw [hrun]
          exact h
        · have hrun : runCells pcells (cell :: rest) i st =
              runCells pcells rest (i + 1) (storeSet st cell.docUri decs) := by
            rw [runCells]
            simp only [hk, hj, hbd]
          rw [hrun]
          exact runCells_nodup pcells rest (i + 1) _
            (nodup_keys_storeSet st cell.docUri decs h)
      case markup =>
        have hrun : runCells pcells (cell :: rest) i st =
            runCells pcells rest (i + 1) st := by
          rw [runCells, hk, hj]
        rw [hrun]
        exact runCells_nodup pcells rest (i + 1) st h

/-- Claim C8: after a successful run the store maps exactly the documents
touched by that run (the processed cells' documents): lookups of every
other document — in particular any document from a prior run absent from
the new report — return absent, and the store holds at most one entry per
document identity. -/
theorem claim_C8 (st : Store) (nb : List NotebookCell) (pd : ProfilingData)
    (pcells : List (Option CellData)) (hc : pd.cells = some pcells)
    (h : (runProfile st nb (some pd)).2 = true) :
    ((runProfile st nb (some pd)).1.map Prod.fst).Nodup ∧
    (∀ uri, (storeGet (runProfile st nb (some pd)).1 uri).isSome = true ↔
      uri ∈ touchedUris pcells nb 0) ∧
    (∀ uri, uri ∉ touchedUris pcells nb 0 →
      storeGet (runProfile st nb (some pd)).1 uri = none) := by
  have hrp : runProfile st nb (some pd) = runCells pcells nb 0 [] := by
    rw [runProfile, hc]
  rw [hrp] at h ⊢
  refine ⟨runCells_nodup pcells nb 0 [] (by simp), ?_, ?_⟩
  · intro uri
    have h2 := runCells_isSome pcells nb 0 [] h uri
    simpa [storeGet_nil] using h2
  · intro uri hmem
    have h2 := runCells_isSome pcells nb 0 [] h uri
    simp only [storeGet_nil, Option.isSome_none, Bool.false_eq_true,
      false_or] at h2
    rcases hopt : storeGet (runCells pcells nb 0 []).1 uri with _ | v
    · rfl
    · rw [hopt] at h2
      simp at h2
      exact absurd h2 hmem

/-- Witness for C8: a successful one-cell run yields a store with
pairwise-distinct document keys. -/
theorem claim_C8_witness :
    ((runProfile [("old", [])] [{ kind := CellKind.code, source := "x", docUri := "u" }] (some { cells := some [some { lines := some [] }] })).1.map Prod.fst).Nodup :=
  (claim_C8 [("old", [])] _ _ [some { lines := some [] }] rfl (by rfl)).1

end JupyterProfiler
